import Mathlib

/-!
Verification of the peer-call orchestration and chat glue of the
ChatServer repository (app.js Gun variant, Firebase variant).

JavaScript strings are modelled as lists of UTF-16 code units
(`JSStr := List Nat`), so that the relational comparison `a > b` used for
initiator election is the exact code-unit lexicographic order of the
language, and the sanitising regular expressions can be read off
character class by character class.
-/

namespace ChatSpec

/-- A JavaScript string, as its sequence of UTF-16 code units. -/
abbrev JSStr := List Nat

/-- JavaScript abstract relational comparison `a < b` on strings:
lexicographic over code units, a proper prefix is smaller. -/
def jsLt : JSStr → JSStr → Bool
  | [], [] => false
  | [], _ :: _ => true
  | _ :: _, [] => false
  | a :: as, b :: bs => if a < b then true else if b < a then false else jsLt as bs

/-- JavaScript `a > b` on strings, defined as `b < a`. -/
def jsGt (a b : JSStr) : Bool := jsLt b a

/-- Keys of a JavaScript object modelled as an association list. -/
def objKeys {α : Type} (m : List (JSStr × α)) : List JSStr := m.map Prod.fst

/-- `obj[k]` lookup. -/
def objGet {α : Type} (k : JSStr) (m : List (JSStr × α)) : Option α :=
  (m.find? (fun kv => kv.1 == k)).map Prod.snd

/-- `obj[k] = v` assignment (object keys are unique). -/
def objSet {α : Type} (k : JSStr) (v : α) (m : List (JSStr × α)) : List (JSStr × α) :=
  (k, v) :: m.filter (fun kv => kv.1 != k)

/-- `delete obj[k]`. -/
def objDel {α : Type} (k : JSStr) (m : List (JSStr × α)) : List (JSStr × α) :=
  m.filter (fun kv => kv.1 != k)

/-! ### Initiator election and signaling path (video.js `startJoin` / `connectToPeer`)

`startJoin` reacts to a roster `child_added` for `peer` with
`connectToPeer(peer, callRoom, username > peer)`, and `connectToPeer`
derives `initiator`/`responder` and the connection path from the flag. -/

/-- `iAmInitiator` as computed by each side: `username > peer`. -/
def initiatorOf (self peer : JSStr) : Bool := jsGt self peer

/-- The ordered pair `(initiator, responder)` computed by one side:
`initiator = iAmInitiator ? username : peer`, `responder` the other. -/
def connPair (self peer : JSStr) : JSStr × JSStr :=
  if initiatorOf self peer then (self, peer) else (peer, self)

/-- Code units of `"cs1"` (`DB_ROOT`). -/
def dbRoot : JSStr := [99, 115, 49]

/-- Code units of `"/calls/"`. -/
def callsSeg : JSStr := [47, 99, 97, 108, 108, 115, 47]

/-- Code units of `"/connections/"`. -/
def connectionsSeg : JSStr := [47, 99, 111, 110, 110, 101, 99, 116, 105, 111, 110, 115, 47]

/-- Code units of `"___"`. -/
def sepUnderscores : JSStr := [95, 95, 95]

/-- The signaling path
`` `${DB_ROOT}/calls/${room}/connections/${initiator}___${responder}` ``
as computed by the side whose identity is `self` facing `peer`. -/
def connPath (room self peer : JSStr) : JSStr :=
  dbRoot ++ callsSeg ++ room ++ connectionsSeg ++
    (connPair self peer).1 ++ sepUnderscores ++ (connPair self peer).2

/-! ### Connection-state monitoring (video.js `pc.onconnectionstatechange`)

The handler reads `pc.connectionState` and `pc.signalingState` at event
time; on `failed` with `iAmInitiator` and a signaling state other than
`closed` it calls `restartIce()` and publishes a fresh offer (flagged
`iceRestart: true`) at `` `${connPath}/offer` ``. -/

/-- `RTCPeerConnection.connectionState` values. -/
inductive ConnState
  | new
  | connecting
  | connected
  | disconnected
  | failed
  | closed
deriving DecidableEq

/-- One `connectionstatechange` event: the new connection state together
with whether `pc.signalingState === 'closed'` at that moment. -/
structure ConnEvent where
  state : ConnState
  signalingClosed : Bool
deriving DecidableEq

/-- The per-peer controller data relevant to the recovery policy:
the role flag, the (fixed) signaling path of this link, and the list of
paths at which ICE-restart offers have been published so far. -/
structure ConnCtl where
  iAmInitiator : Bool
  pathOf : JSStr
  restartOffers : List JSStr
deriving DecidableEq

/-- The `onconnectionstatechange` handler, restricted to its recovery
action: on `failed`, if `iAmInitiator && pc.signalingState !== 'closed'`,
republish an ICE-restart offer at the link's own path. -/
def onConnectionStateChange (c : ConnCtl) (e : ConnEvent) : ConnCtl :=
  if e.state = ConnState.failed ∧ c.iAmInitiator = true ∧ e.signalingClosed = false then
    { c with restartOffers := c.restartOffers ++ [c.pathOf] }
  else c

/-- Process a sequence of connection-state events. -/
def runConn (c : ConnCtl) (evs : List ConnEvent) : ConnCtl :=
  evs.foldl onConnectionStateChange c

/-- How many events of a trace are `failed` transitions seen while the
signaling state is not `closed`. -/
def failedCount (evs : List ConnEvent) : Nat :=
  (evs.filter (fun e => decide (e.state = ConnState.failed ∧ e.signalingClosed = false))).length

/-- A trace in which the connection fails, goes back to connecting, and
fails a second time, the signaling state never being `closed`. -/
def failTwiceTrace : List ConnEvent :=
  [⟨ConnState.failed, false⟩, ⟨ConnState.connecting, false⟩, ⟨ConnState.failed, false⟩]

/-! ### ICE candidate buffering (video.js `connectToPeer`)

The `child_added` listener on the remote ICE path applies the candidate
directly when `pc.remoteDescription` is set and pushes it onto
`iceQueues[peer]` otherwise; the offer/answer handlers set the remote
description at most once and then run `flushIceQueue`, which applies the
queued candidates in order and resets the queue to `[]`. -/

/-- Events seen by one peer link's ICE machinery: arrival of a remote
candidate, or the (guarded, at-most-once) setting of the remote
description followed by `flushIceQueue`. -/
inductive IceEvent
  | cand (c : Nat)
  | setRemote
deriving DecidableEq

/-- Is this event a candidate arrival? -/
def isCand : IceEvent → Bool
  | IceEvent.cand _ => true
  | IceEvent.setRemote => false

/-- The candidates of a trace, in arrival order. -/
def candsOf (evs : List IceEvent) : List Nat :=
  evs.filterMap (fun e => match e with | IceEvent.cand c => some c | IceEvent.setRemote => none)

/-- Per-peer ICE state: whether the remote description is set, the
pre-remote-description buffer, and the list of candidates handed to
`addIceCandidate` so far, in application order. -/
structure IceState where
  remoteDescSet : Bool
  queue : List Nat
  applied : List Nat
deriving DecidableEq

/-- One step of the ICE machinery. -/
def iceStep (s : IceState) : IceEvent → IceState
  | IceEvent.cand c =>
    if s.remoteDescSet then { s with applied := s.applied ++ [c] }
    else { s with queue := s.queue ++ [c] }
  | IceEvent.setRemote =>
    if s.remoteDescSet then s
    else { remoteDescSet := true, queue := [], applied := s.applied ++ s.queue }

/-- Process a trace of ICE events. -/
def iceRun (s : IceState) (evs : List IceEvent) : IceState :=
  evs.foldl iceStep s

/-! ### Call session state (video.js module-level state and DOM tiles)

`peerConns`, `iceQueues` and `audioAnalysers` are objects keyed by peer
username (sets of keys, resp. key/value maps); the video grid holds at
most one tile per id (`addVideoTile`/`addPeerTile` return early when the
tile already exists), modelled as the list of tile ids in DOM order. -/

/-- Code units of `"__local__"`, the local tile id. -/
def localTile : JSStr := [95, 95, 108, 111, 99, 97, 108, 95, 95]

/-- The module-level call state of video.js. Booleans stand for the
nullable stream references (`localStream`, `screenStream`), for the
roster registration of self, and for the `participantsRef` listener. -/
structure CallState where
  callRoom : Option JSStr
  localCapture : Bool
  screenCapture : Bool
  peerConns : List JSStr
  iceQueues : List (JSStr × List Nat)
  audioAnalysers : List JSStr
  tiles : List JSStr
  rosterRegistered : Bool
  rosterSubscribed : Bool
deriving DecidableEq

/-- `removePeer(peer)`: close and delete the connection if present,
delete the ICE queue, clear the audio analyser if present, and remove the
tile with id `tile-${peer}` if present. Besides the new state it returns
how many connections were closed and how many tiles were removed. -/
def removePeer (p : JSStr) (s : CallState) : CallState × Nat × Nat :=
  (⟨s.callRoom, s.localCapture, s.screenCapture,
    s.peerConns.filter (fun q => q != p),
    objDel p s.iceQueues,
    s.audioAnalysers.filter (fun q => q != p),
    s.tiles.erase p,
    s.rosterRegistered, s.rosterSubscribed⟩,
   (if p ∈ s.peerConns then 1 else 0),
   (if p ∈ s.tiles then 1 else 0))

/-- The state effect of `removePeer`. -/
def removePeerSt (p : JSStr) (s : CallState) : CallState := (removePeer p s).1

/-- `leaveCall()`: early return when `callRoom` is unset; otherwise
remove every peer (over a snapshot of the keys), stop and null both
streams, remove self from the roster, detach the participants listener,
unset `callRoom` and clear the video grid. -/
def leaveCall (s : CallState) : CallState :=
  match s.callRoom with
  | none => s
  | some _ =>
    let s1 := s.peerConns.foldl (fun acc p => removePeerSt p acc) s
    { s1 with
      localCapture := false, screenCapture := false,
      rosterRegistered := false, rosterSubscribed := false,
      callRoom := none, tiles := [] }

/-- `startJoin()`: guard on login, then acquire camera+microphone
(`mediaOk` is whether `getUserMedia` succeeded); on failure alert and
return with nothing mutated; on success set the stream, enter the call
room, add the local tile, register in the roster and subscribe to it.
The returned flag is whether an error alert was shown. -/
def startJoin (loggedIn mediaOk : Bool) (currentRoom : JSStr) (s : CallState) :
    CallState × Bool :=
  if loggedIn = false then (s, true)
  else if mediaOk = false then (s, true)
  else
    ({ s with
        localCapture := true,
        callRoom := some currentRoom,
        tiles := if localTile ∈ s.tiles then s.tiles else s.tiles ++ [localTile],
        rosterRegistered := true,
        rosterSubscribed := true }, false)

/-- The state effect of `connectToPeer(peer, room, iAmInitiator)`:
early return when a connection to `peer` already exists; otherwise create
the connection, initialise `iceQueues[peer] = []` and add the peer tile
(`addPeerTile` returns early when the tile exists). -/
def connectToPeer (peer room : JSStr) (iAmInitiator : Bool) (s : CallState) : CallState :=
  if peer ∈ s.peerConns then s
  else
    { s with
      peerConns := peer :: s.peerConns,
      iceQueues := objSet peer [] s.iceQueues,
      tiles := if peer ∈ s.tiles then s.tiles else s.tiles ++ [peer] }

/-- The roster `child_added` handler of `startJoin`: skip self and peers
that already have a connection, otherwise connect with
`iAmInitiator = username > peer`. -/
def onChildAdded (self peer room : JSStr) (s : CallState) : CallState :=
  if peer = self ∨ peer ∈ s.peerConns then s
  else connectToPeer peer room (jsGt self peer) s

/-! ### Presence staleness (app.js Gun variant, `startPresence`) -/

/-- `PRESENCE_TTL` (ms). -/
def PRESENCE_TTL : Nat := 90000

/-- A Gun presence record `{ username, lastSeen, online }`. -/
structure PresenceData where
  username : JSStr
  online : Bool
  lastSeen : Nat
deriving DecidableEq

/-- The `onlineNow` map, username key to presence record. -/
abbrev PresenceMap := List (JSStr × PresenceData)

/-- The `map().on()` presence handler: ignore empty data or data with a
falsy `username`; an entry is alive when its `online` flag is set and its
`lastSeen` is strictly less than `PRESENCE_TTL` ms old; alive entries are
stored in `onlineNow`, others are deleted from it. (`now - lastSeen` is
truncated `Nat` subtraction: a `lastSeen` in the future yields `0`, alive
exactly as the negative difference is in JavaScript.) -/
def presenceOnEvent (now : Nat) (key : JSStr) (data : Option PresenceData)
    (m : PresenceMap) : PresenceMap :=
  match data with
  | none => m
  | some d =>
    if d.username = [] then m
    else if d.online = true ∧ now - d.lastSeen < PRESENCE_TTL then objSet key d m
    else objDel key m

/-- The 30 s staleness recheck: drop every entry whose `lastSeen` is
`PRESENCE_TTL` ms old or older. -/
def recheckStale (now : Nat) (m : PresenceMap) : PresenceMap :=
  m.filter (fun kv => !(decide (now - kv.2.lastSeen ≥ PRESENCE_TTL)))

/-! ### Username sanitisation and login (Firebase variant `doLogin`,
`change-name-btn` handler; Gun variant `doLogin`) -/

/-- The white space and line terminator code units removed by
`String.prototype.trim`. -/
def jsWhitespace (c : Nat) : Bool :=
  c == 9 || c == 10 || c == 11 || c == 12 || c == 13 || c == 32 ||
  c == 160 || c == 5760 || (decide (8192 ≤ c) && decide (c ≤ 8202)) ||
  c == 8232 || c == 8233 || c == 8239 || c == 8287 || c == 12288 || c == 65279

/-- `s.trim()`. -/
def jsTrim (s : JSStr) : JSStr :=
  ((s.dropWhile jsWhitespace).reverse.dropWhile jsWhitespace).reverse

/-- The regexp class `\w`: ASCII letters, digits and underscore. -/
def wordChar (c : Nat) : Bool :=
  (decide (48 ≤ c) && decide (c ≤ 57)) || (decide (65 ≤ c) && decide (c ≤ 90)) ||
  (decide (97 ≤ c) && decide (c ≤ 122)) || c == 95

/-- The class `[\w\-. ]` kept by the username sanitiser. -/
def allowedNameChar (c : Nat) : Bool :=
  wordChar c || c == 45 || c == 46 || c == 32

/-- `raw.trim().replace(/[^\w\-. ]/g, '').slice(0, 24)`. -/
def sanitizeName (s : JSStr) : JSStr :=
  ((jsTrim s).filter allowedNameChar).take 24

/-- What the login UI currently shows. -/
inductive LoginStatus
  | idle
  | checking
  | errorShown
  | successShown
deriving DecidableEq

/-- A Firestore `users` document (the timestamp fields `createdAt` and
`lastSeen` are not modelled). -/
structure AccountRecord where
  username : JSStr
  keyHash : JSStr
deriving DecidableEq

/-- The login-relevant application state of the Firebase variant:
the account directory, the session username, whether the login screen is
showing, and the login status line. -/
structure AppState where
  users : List (JSStr × AccountRecord)
  sessionUser : Option JSStr
  onLoginScreen : Bool
  status : LoginStatus
deriving DecidableEq

/-- `doLogin(rawName, rawKey)` of the Firebase variant, with the SHA-256
digest abstracted as the function `hash`: sanitise the name, trim the
key, reject empty inputs; for a fresh name create the record and enter
chat; for an existing name verify the stored `keyHash` against the hash
of the provided key, rejecting a mismatch before any state is touched. -/
def doLogin (hash : JSStr → JSStr) (rawName rawKey : JSStr) (s : AppState) : AppState :=
  let name := sanitizeName rawName
  let key := jsTrim rawKey
  if name = [] then { s with status := LoginStatus.errorShown }
  else if key = [] then { s with status := LoginStatus.errorShown }
  else
    let keyHash := hash key
    match objGet name s.users with
    | none =>
      { users := objSet name ⟨name, keyHash⟩ s.users,
        sessionUser := some name, onLoginScreen := false,
        status := LoginStatus.successShown }
    | some r =>
      if r.keyHash ≠ keyHash then { s with status := LoginStatus.errorShown }
      else { s with sessionUser := some name, onLoginScreen := false,
                    status := LoginStatus.successShown }

/-- The `change-name-btn` click handler of the Firebase variant: sanitise
the prompted name, return unchanged on a falsy prompt result, an empty
sanitised name, the current name, a falsy key, or a key-hash mismatch for
an existing record; otherwise register or reclaim the name and switch the
session to it. -/
def changeName (hash : JSStr → JSStr) (rawNew rawKey : JSStr) (s : AppState) : AppState :=
  if rawNew = [] then s
  else
    let clean := sanitizeName rawNew
    if clean = [] then s
    else if some clean = s.sessionUser then s
    else if rawKey = [] then s
    else
      let keyHash := hash (jsTrim rawKey)
      match objGet clean s.users with
      | some r =>
        if r.keyHash ≠ keyHash then s
        else { s with sessionUser := some clean }
      | none =>
        { s with users := objSet clean ⟨clean, keyHash⟩ s.users,
                 sessionUser := some clean }

/-- `doLogin(name)` of the Gun variant, restricted to its effect on the
session username: sanitise, reject the empty result, otherwise adopt the
sanitised name. -/
def doLoginGun (raw : JSStr) (u : Option JSStr) : Option JSStr :=
  if sanitizeName raw = [] then u else some (sanitizeName raw)

end ChatSpec

namespace ChatSpec

/-- Trichotomy of the JavaScript string order: two strings are equal, or
exactly one of the two comparisons holds. -/
theorem jsLt_trichotomy (a : JSStr) : ∀ b : JSStr,
    a = b ∨ (jsLt a b = true ∧ jsLt b a = false) ∨
      (jsLt a b = false ∧ jsLt b a = true) := by
  induction a with
  | nil =>
    intro b
    cases b with
    | nil => exact Or.inl rfl
    | cons y ys => exact Or.inr (Or.inl (by simp [jsLt]))
  | cons x xs ih =>
    intro b
    cases b with
    | nil => exact Or.inr (Or.inr (by simp [jsLt]))
    | cons y ys =>
      rcases Nat.lt_trichotomy x y with h | h | h
      · refine Or.inr (Or.inl ?_)
        constructor
        · simp [jsLt, h]
        · simp [jsLt, Nat.lt_asymm h, h]
      · subst h
        rcases ih ys with h2 | h2 | h2
        · exact Or.inl (by rw [h2])
        · exact Or.inr (Or.inl (by simp [jsLt, h2.1, h2.2]))
        · exact Or.inr (Or.inr (by simp [jsLt, h2.1, h2.2]))
      · refine Or.inr (Or.inr ?_)
        constructor
        · simp [jsLt, Nat.lt_asymm h, h]
        · simp [jsLt, h]

/-- Claim C2: for distinct identities the two sides independently compute
complementary roles — exactly one evaluates `self > peer` to true — both
derive the same `(initiator, responder)` signaling path, and the number
of offers created for the pair (one per side with `iAmInitiator`) is
exactly one. -/
theorem initiator_election_complementary (a b room : JSStr) (hne : a ≠ b) :
    ((initiatorOf a b = true ∧ initiatorOf b a = false) ∨
      (initiatorOf a b = false ∧ initiatorOf b a = true)) ∧
    connPair a b = connPair b a ∧
    connPath room a b = connPath room b a ∧
    (if initiatorOf a b then 1 else 0) + (if initiatorOf b a then 1 else 0) = 1 := by
  rcases jsLt_trichotomy a b with h | h | h
  · exact absurd h hne
  · have hab : initiatorOf a b = false := by
      simp [initiatorOf, jsGt, h.2]
    have hba : initiatorOf b a = true := by
      simp [initiatorOf, jsGt, h.1]
    have hpair : connPair a b = connPair b a := by
      simp [connPair, hab, hba]
    exact ⟨Or.inr ⟨hab, hba⟩, hpair, by simp [connPath, hpair], by simp [hab, hba]⟩
  · have hab : initiatorOf a b = true := by
      simp [initiatorOf, jsGt, h.2]
    have hba : initiatorOf b a = false := by
      simp [initiatorOf, jsGt, h.1]
    have hpair : connPair a b = connPair b a := by
      simp [connPair, hab, hba]
    exact ⟨Or.inl ⟨hab, hba⟩, hpair, by simp [connPath, hpair], by simp [hab, hba]⟩

/-- Witness for C2 at the identities `"bob"` and `"alice"` in room
`"g"`: the hypothesis is discharged and the election decided concretely. -/
theorem initiator_election_complementary_witness :
    ([98, 111, 98] : JSStr) ≠ [97, 108, 105, 99, 101] ∧
    (((initiatorOf [98, 111, 98] [97, 108, 105, 99, 101] = true ∧
        initiatorOf [97, 108, 105, 99, 101] [98, 111, 98] = false) ∨
      (initiatorOf [98, 111, 98] [97, 108, 105, 99, 101] = false ∧
        initiatorOf [97, 108, 105, 99, 101] [98, 111, 98] = true)) ∧
     connPair [98, 111, 98] [97, 108, 105, 99, 101] =
       connPair [97, 108, 105, 99, 101] [98, 111, 98] ∧
     connPath [103] [98, 111, 98] [97, 108, 105, 99, 101] =
       connPath [103] [97, 108, 105, 99, 101] [98, 111, 98] ∧
     (if initiatorOf [98, 111, 98] [97, 108, 105, 99, 101] then 1 else 0) +
       (if initiatorOf [97, 108, 105, 99, 101] [98, 111, 98] then 1 else 0) = 1) :=
  ⟨by decide,
   initiator_election_complementary [98, 111, 98] [97, 108, 105, 99, 101] [103] (by decide)⟩

/-- Claim C1 counterexample: on the initiator side, the trace
failed → connecting → failed (signaling state never `closed`) publishes
two ICE-restart offers, not at most one — the handler has no once-only
guard, so a second consecutive `failed` transition restarts again. -/
theorem second_failed_restarts_again :
    (runConn ⟨true, [112], []⟩ failTwiceTrace).restartOffers.length = 2 ∧
    ¬ (runConn ⟨true, [112], []⟩ failTwiceTrace).restartOffers.length ≤ 1 := by
  constructor
  · rfl
  · decide

/-- Claim C1 (amended): every transition to `failed` observed while the
signaling state is not `closed` triggers an ICE restart on the initiator
side, each republishing a fresh offer to the link's original signaling
path — there is no once-only guard, so consecutive `failed` transitions
each retrigger a restart; the responder side never initiates a restart in
any state. -/
theorem initiator_restart_per_failed_transition (c : ConnCtl) (evs : List ConnEvent) :
    (c.iAmInitiator = true →
      (runConn c evs).restartOffers =
        c.restartOffers ++ List.replicate (failedCount evs) c.pathOf) ∧
    (c.iAmInitiator = false → runConn c evs = c) := by
  induction evs generalizing c with
  | nil => simp [runConn, failedCount]
  | cons e evs ih =>
    constructor
    · intro hinit
      by_cases h : e.state = ConnState.failed ∧ e.signalingClosed = false
      · have hstep : onConnectionStateChange c e =
            { c with restartOffers := c.restartOffers ++ [c.pathOf] } := by
          simp [onConnectionStateChange, h.1, h.2, hinit]
        have hcnt : failedCount (e :: evs) = failedCount evs + 1 := by
          simp [failedCount, List.filter_cons, h]
        have := (ih { c with restartOffers := c.restartOffers ++ [c.pathOf] }).1 hinit
        calc (runConn c (e :: evs)).restartOffers
            = (runConn { c with restartOffers := c.restartOffers ++ [c.pathOf] } evs).restartOffers := by
              simp [runConn, hstep]
          _ = (c.restartOffers ++ [c.pathOf]) ++ List.replicate (failedCount evs) c.pathOf := this
          _ = c.restartOffers ++ List.replicate (failedCount (e :: evs)) c.pathOf := by
              rw [hcnt, List.append_assoc]
              simp [List.replicate_succ]
      · have hstep : onConnectionStateChange c e = c := by
          unfold onConnectionStateChange
          rw [if_neg]
          tauto
        have hcnt : failedCount (e :: evs) = failedCount evs := by
          simp [failedCount, List.filter_cons, h]
        have := (ih c).1 hinit
        simpa [runConn, hstep, hcnt] using this
    · intro hresp
      have hstep : onConnectionStateChange c e = c := by
        simp [onConnectionStateChange, hresp]
      have := (ih c).2 hresp
      simpa [runConn, hstep] using this

/-- Witness for the amended C1 at a concrete initiator controller and the
two-failure trace, and at the corresponding responder controller. -/
theorem initiator_restart_per_failed_transition_witness :
    (runConn ⟨true, [112], []⟩ failTwiceTrace).restartOffers =
      [] ++ List.replicate (failedCount failTwiceTrace) [112] ∧
    runConn ⟨false, [112], []⟩ failTwiceTrace = ⟨false, [112], []⟩ :=
  ⟨(initiator_restart_per_failed_transition ⟨true, [112], []⟩ failTwiceTrace).1 rfl,
   (initiator_restart_per_failed_transition ⟨false, [112], []⟩ failTwiceTrace).2 rfl⟩

/-- Before the remote description is set, candidate arrivals are appended
to the per-peer queue in arrival order and nothing is applied. -/
theorem iceRun_buffers (evs : List IceEvent) :
    ∀ q a : List Nat, (∀ e ∈ evs, isCand e = true) →
      iceRun ⟨false, q, a⟩ evs = ⟨false, q ++ candsOf evs, a⟩ := by
  induction evs with
  | nil => intro q a _; simp [iceRun, candsOf]
  | cons e evs ih =>
    intro q a h
    cases e with
    | cand c =>
      have : iceRun ⟨false, q, a⟩ (IceEvent.cand c :: evs) =
          iceRun ⟨false, q ++ [c], a⟩ evs := by
        simp [iceRun, iceStep]
      rw [this, ih (q ++ [c]) a (fun e he => h e (List.mem_cons_of_mem _ he))]
      simp [candsOf]
    | setRemote =>
      have := h IceEvent.setRemote (List.mem_cons_self _ _)
      simp [isCand] at this

/-- After the remote description is set, candidate arrivals are applied
directly, in arrival order, and the queue is untouched. -/
theorem iceRun_applies_direct (evs : List IceEvent) :
    ∀ q a : List Nat, (∀ e ∈ evs, isCand e = true) →
      iceRun ⟨true, q, a⟩ evs = ⟨true, q, a ++ candsOf evs⟩ := by
  induction evs with
  | nil => intro q a _; simp [iceRun, candsOf]
  | cons e evs ih =>
    intro q a h
    cases e with
    | cand c =>
      have : iceRun ⟨true, q, a⟩ (IceEvent.cand c :: evs) =
          iceRun ⟨true, q, a ++ [c]⟩ evs := by
        simp [iceRun, iceStep]
      rw [this, ih q (a ++ [c]) (fun e he => h e (List.mem_cons_of_mem _ he))]
      simp [candsOf]
    | setRemote =>
      have := h IceEvent.setRemote (List.mem_cons_self _ _)
      simp [isCand] at this

/-- Claim C3: starting from a fresh peer link, candidates arriving before
the remote description is set are queued in arrival order; when the
remote description is set the queue is drained in FIFO order, each
buffered candidate applied exactly once, and the queue is cleared;
candidates arriving afterwards are applied directly — the final applied
sequence is exactly the pre-description candidates in order followed by
the post-description candidates in order. -/
theorem ice_candidates_buffered_fifo (pre post : List IceEvent)
    (hpre : ∀ e ∈ pre, isCand e = true) (hpost : ∀ e ∈ post, isCand e = true) :
    iceRun ⟨false, [], []⟩ (pre ++ IceEvent.setRemote :: post) =
      ⟨true, [], candsOf pre ++ candsOf post⟩ := by
  have h1 : iceRun ⟨false, [], []⟩ (pre ++ IceEvent.setRemote :: post) =
      iceRun (iceRun ⟨false, [], []⟩ pre) (IceEvent.setRemote :: post) := by
    simp [iceRun, List.foldl_append]
  rw [h1, iceRun_buffers pre [] [] hpre]
  have h2 : iceRun ⟨false, [] ++ candsOf pre, []⟩ (IceEvent.setRemote :: post) =
      iceRun ⟨true, [], candsOf pre⟩ post := by
    simp [iceRun, iceStep]
  rw [h2, iceRun_applies_direct post [] (candsOf pre) hpost]

/-- Witness for C3: candidates 1 and 2 arrive before the remote
description, candidate 3 after; the applied order is `[1, 2, 3]`, the
queue ends empty. -/
theorem ice_candidates_buffered_fifo_witness :
    iceRun ⟨false, [], []⟩
        ([IceEvent.cand 1, IceEvent.cand 2] ++ IceEvent.setRemote :: [IceEvent.cand 3]) =
      ⟨true, [], [1, 2, 3]⟩ := by
  have h := ice_candidates_buffered_fifo [IceEvent.cand 1, IceEvent.cand 2]
    [IceEvent.cand 3] (by decide) (by decide)
  simpa [candsOf] using h

/-- A key never survives the filter that deletes it. -/
theorem not_mem_filter_bne (l : List JSStr) (p : JSStr) :
    p ∉ l.filter (fun q => q != p) := by
  intro h
  have := List.of_mem_filter h
  simp at this

/-- Deleting an absent key changes nothing. -/
theorem filter_bne_of_not_mem (l : List JSStr) (p : JSStr) (h : p ∉ l) :
    l.filter (fun q => q != p) = l := by
  rw [List.filter_eq_self]
  intro a ha
  exact bne_iff_ne.mpr (fun hap => h (hap ▸ ha))

/-- Claim C4: when `getUserMedia` fails, `startJoin` surfaces the error
and aborts with no partial state: the state is untouched, so the call
room stays unset, self is not registered in the roster, no roster
subscription is created, and no local video tile is added. -/
theorem startJoin_aborts_on_media_failure (room : JSStr) (s : CallState)
    (hroom : s.callRoom = none) (hreg : s.rosterRegistered = false)
    (hsub : s.rosterSubscribed = false) (htile : localTile ∉ s.tiles) :
    startJoin true false room s = (s, true) ∧
    (startJoin true false room s).1.callRoom = none ∧
    (startJoin true false room s).1.rosterRegistered = false ∧
    (startJoin true false room s).1.rosterSubscribed = false ∧
    localTile ∉ (startJoin true false room s).1.tiles := by
  have h : startJoin true false room s = (s, true) := by
    simp [startJoin]
  refine ⟨h, ?_, ?_, ?_, ?_⟩ <;> rw [h]
  · exact hroom
  · exact hreg
  · exact hsub
  · exact htile

/-- Witness for C4 at the idle state and room `"g"`. -/
theorem startJoin_aborts_on_media_failure_witness :
    startJoin true false [103] ⟨none, false, false, [], [], [], [], false, false⟩ =
      (⟨none, false, false, [], [], [], [], false, false⟩, true) ∧
    (startJoin true false [103]
        ⟨none, false, false, [], [], [], [], false, false⟩).1.callRoom = none ∧
    (startJoin true false [103]
        ⟨none, false, false, [], [], [], [], false, false⟩).1.rosterRegistered = false ∧
    (startJoin true false [103]
        ⟨none, false, false, [], [], [], [], false, false⟩).1.rosterSubscribed = false ∧
    localTile ∉ (startJoin true false [103]
        ⟨none, false, false, [], [], [], [], false, false⟩).1.tiles :=
  startJoin_aborts_on_media_failure [103] ⟨none, false, false, [], [], [], [], false, false⟩
    rfl rfl rfl (by decide)

/-- Folding `removePeer` over a list of keys deletes exactly those keys
from the connection map. -/
theorem foldl_removePeerSt_peerConns (l : List JSStr) :
    ∀ s : CallState,
      (l.foldl (fun acc p => removePeerSt p acc) s).peerConns =
        s.peerConns.filter (fun q => !(decide (q ∈ l))) := by
  induction l with
  | nil =>
    intro s
    simp
  | cons a l ih =>
    intro s
    have hstep : (removePeerSt a s).peerConns = s.peerConns.filter (fun q => q != a) := rfl
    calc ((a :: l).foldl (fun acc p => removePeerSt p acc) s).peerConns
        = (l.foldl (fun acc p => removePeerSt p acc) (removePeerSt a s)).peerConns := by
          rw [List.foldl_cons]
      _ = (removePeerSt a s).peerConns.filter (fun q => !(decide (q ∈ l))) := ih _
      _ = (s.peerConns.filter (fun q => q != a)).filter (fun q => !(decide (q ∈ l))) := by
          rw [hstep]
      _ = s.peerConns.filter (fun q => !(decide (q ∈ a :: l))) := by
          rw [List.filter_filter]
          refine List.filter_congr ?_
          intro x _
          by_cases hx : x = a
          · subst hx; simp
          · by_cases hl : x ∈ l <;> simp [hx, hl]

/-- `leaveCall` on a state that is not in a call is the identity. -/
theorem leaveCall_of_not_in_call (s : CallState) (h : s.callRoom = none) :
    leaveCall s = s := by
  unfold leaveCall
  rw [h]

/-- `leaveCall` always leaves `callRoom` unset. -/
theorem leaveCall_callRoom (s : CallState) : (leaveCall s).callRoom = none := by
  unfold leaveCall
  cases h : s.callRoom with
  | none => exact h
  | some r => rfl

/-- Claim C5: `leaveCall` is idempotent — invoked while not in a call it
is a no-op; invoked in a call it closes every peer link, stops local
capture and screen tracks, removes self from the roster, detaches the
roster subscription and clears the grid; an immediate second invocation
is a no-op. -/
theorem leaveCall_teardown_idempotent (s : CallState) (r : JSStr) :
    (s.callRoom = none → leaveCall s = s) ∧
    (s.callRoom = some r →
      (leaveCall s).peerConns = [] ∧
      (leaveCall s).localCapture = false ∧
      (leaveCall s).screenCapture = false ∧
      (leaveCall s).rosterRegistered = false ∧
      (leaveCall s).rosterSubscribed = false ∧
      (leaveCall s).callRoom = none ∧
      (leaveCall s).tiles = []) ∧
    leaveCall (leaveCall s) = leaveCall s := by
  refine ⟨leaveCall_of_not_in_call s, ?_, ?_⟩
  · intro h
    have hall : (s.peerConns.foldl (fun acc p => removePeerSt p acc) s).peerConns = [] := by
      rw [foldl_removePeerSt_peerConns]
      rw [List.filter_eq_nil_iff]
      intro a ha
      simp [ha]
    unfold leaveCall
    rw [h]
    exact ⟨hall, rfl, rfl, rfl, rfl, rfl, rfl⟩
  · exact leaveCall_of_not_in_call _ (leaveCall_callRoom s)

/-- Witness for C5: the no-op branch at the idle state, and the teardown
branch at a one-peer call state. -/
theorem leaveCall_teardown_idempotent_witness :
    leaveCall ⟨none, false, false, [], [], [], [], false, false⟩ =
      ⟨none, false, false, [], [], [], [], false, false⟩ ∧
    (leaveCall ⟨some [103], true, false, [[98]], [([98], [])], [[98]],
        [localTile, [98]], true, true⟩).peerConns = [] ∧
    (leaveCall ⟨some [103], true, false, [[98]], [([98], [])], [[98]],
        [localTile, [98]], true, true⟩).localCapture = false ∧
    (leaveCall ⟨some [103], true, false, [[98]], [([98], [])], [[98]],
        [localTile, [98]], true, true⟩).callRoom = none ∧
    leaveCall (leaveCall ⟨some [103], true, false, [[98]], [([98], [])], [[98]],
        [localTile, [98]], true, true⟩) =
      leaveCall ⟨some [103], true, false, [[98]], [([98], [])], [[98]],
        [localTile, [98]], true, true⟩ := by
  refine ⟨(leaveCall_teardown_idempotent
      ⟨none, false, false, [], [], [], [], false, false⟩ [103]).1 rfl, ?_, ?_, ?_,
    (leaveCall_teardown_idempotent ⟨some [103], true, false, [[98]], [([98], [])], [[98]],
        [localTile, [98]], true, true⟩ [103]).2.2⟩
  · exact ((leaveCall_teardown_idempotent ⟨some [103], true, false, [[98]], [([98], [])],
      [[98]], [localTile, [98]], true, true⟩ [103]).2.1 rfl).1
  · exact ((leaveCall_teardown_idempotent ⟨some [103], true, false, [[98]], [([98], [])],
      [[98]], [localTile, [98]], true, true⟩ [103]).2.1 rfl).2.1
  · exact ((leaveCall_teardown_idempotent ⟨some [103], true, false, [[98]], [([98], [])],
      [[98]], [localTile, [98]], true, true⟩ [103]).2.1 rfl).2.2.2.2.2.1

/-- Claim C6: for a peer with a live connection and a rendered tile,
`removePeer` closes exactly one connection and removes exactly one tile,
and releases the connection entry, the buffered ICE queue and the audio
monitor of that peer; a second invocation in succession is a no-op that
closes nothing and removes nothing. (Connection keys and tile ids are
unique, as they are object keys resp. DOM ids.) -/
theorem removePeer_one_connection_idempotent (p : JSStr) (s : CallState)
    (hconn : p ∈ s.peerConns) (htile : p ∈ s.tiles)
    (hnd : s.peerConns.Nodup) (hndt : s.tiles.Nodup) :
    (removePeer p s).2.1 = 1 ∧
    (removePeer p s).2.2 = 1 ∧
    (removePeer p s).1.peerConns.length + 1 = s.peerConns.length ∧
    (removePeer p s).1.tiles.length + 1 = s.tiles.length ∧
    p ∉ (removePeer p s).1.peerConns ∧
    objGet p (removePeer p s).1.iceQueues = none ∧
    p ∉ (removePeer p s).1.audioAnalysers ∧
    p ∉ (removePeer p s).1.tiles ∧
    removePeer p (removePeer p s).1 = ((removePeer p s).1, 0, 0) := by
  have hc1 : (removePeer p s).2.1 = 1 := by simp [removePeer, hconn]
  have hc2 : (removePeer p s).2.2 = 1 := by simp [removePeer, htile]
  have hlen : (removePeer p s).1.peerConns.length + 1 = s.peerConns.length := by
    show (s.peerConns.filter (fun q => q != p)).length + 1 = s.peerConns.length
    rw [← hnd.erase_eq_filter p, List.length_erase_of_mem hconn]
    exact Nat.succ_pred_eq_of_pos (List.length_pos.mpr (List.ne_nil_of_mem hconn))
  have htlen : (removePeer p s).1.tiles.length + 1 = s.tiles.length := by
    show (s.tiles.erase p).length + 1 = s.tiles.length
    rw [List.length_erase_of_mem htile]
    exact Nat.succ_pred_eq_of_pos (List.length_pos.mpr (List.ne_nil_of_mem htile))
  have hpc : p ∉ (removePeer p s).1.peerConns := not_mem_filter_bne _ p
  have hq : objGet p (removePeer p s).1.iceQueues = none := by
    show objGet p (objDel p s.iceQueues) = none
    unfold objGet objDel
    rw [List.find?_eq_none.mpr, Option.map_none']
    intro kv hkv
    have := List.of_mem_filter hkv
    simpa using this
  have han : p ∉ (removePeer p s).1.audioAnalysers := not_mem_filter_bne _ p
  have hti : p ∉ (removePeer p s).1.tiles := hndt.not_mem_erase
  refine ⟨hc1, hc2, hlen, htlen, hpc, hq, han, hti, ?_⟩
  have e1 : (removePeer p s).1.peerConns.filter (fun q => q != p) =
      (removePeer p s).1.peerConns := filter_bne_of_not_mem _ p hpc
  have e2 : objDel p (removePeer p s).1.iceQueues = (removePeer p s).1.iceQueues := by
    show ((s.iceQueues.filter (fun kv => kv.1 != p)).filter (fun kv => kv.1 != p)) =
      s.iceQueues.filter (fun kv => kv.1 != p)
    rw [List.filter_eq_self]
    intro kv hkv
    exact @List.of_mem_filter _ (fun x => x.1 != p) kv _ hkv
  have e3 : (removePeer p s).1.audioAnalysers.filter (fun q => q != p) =
      (removePeer p s).1.audioAnalysers := filter_bne_of_not_mem _ p han
  have e4 : (removePeer p s).1.tiles.erase p = (removePeer p s).1.tiles :=
    List.erase_of_not_mem hti
  show (⟨_, _, _, (removePeer p s).1.peerConns.filter (fun q => q != p),
      objDel p (removePeer p s).1.iceQueues,
      (removePeer p s).1.audioAnalysers.filter (fun q => q != p),
      (removePeer p s).1.tiles.erase p, _, _⟩,
    (if p ∈ (removePeer p s).1.peerConns then 1 else 0),
    (if p ∈ (removePeer p s).1.tiles then 1 else 0)) = ((removePeer p s).1, 0, 0)
  rw [e1, e2, e3, e4, if_neg hpc, if_neg hti]

/-- Witness for C6 at a two-peer call state. -/
theorem removePeer_one_connection_idempotent_witness :
    (removePeer [98] ⟨some [103], true, false, [[98], [99]], [([98], [7]), ([99], [])],
        [[98]], [localTile, [98], [99]], true, true⟩).2.1 = 1 ∧
    (removePeer [98] ⟨some [103], true, false, [[98], [99]], [([98], [7]), ([99], [])],
        [[98]], [localTile, [98], [99]], true, true⟩).2.2 = 1 ∧
    objGet [98] (removePeer [98] ⟨some [103], true, false, [[98], [99]],
        [([98], [7]), ([99], [])], [[98]],
        [localTile, [98], [99]], true, true⟩).1.iceQueues = none ∧
    removePeer [98] (removePeer [98] ⟨some [103], true, false, [[98], [99]],
        [([98], [7]), ([99], [])], [[98]],
        [localTile, [98], [99]], true, true⟩).1 =
      ((removePeer [98] ⟨some [103], true, false, [[98], [99]], [([98], [7]), ([99], [])],
        [[98]], [localTile, [98], [99]], true, true⟩).1, 0, 0) := by
  have h := removePeer_one_connection_idempotent [98]
    ⟨some [103], true, false, [[98], [99]], [([98], [7]), ([99], [])], [[98]],
      [localTile, [98], [99]], true, true⟩
    (by decide) (by decide) (by decide) (by decide)
  exact ⟨h.1, h.2.1, h.2.2.2.2.2.1, h.2.2.2.2.2.2.2.2⟩

/-- Claim C7: a roster add event never creates a connection to self or a
second connection for an identity that already has one, `connectToPeer`
for an identity already in the map is a no-op, and the handler preserves
the invariants that the map holds at most one connection per identity and
none to self. -/
theorem peer_map_at_most_one_no_self (self peer room : JSStr) (s : CallState) :
    onChildAdded self self room s = s ∧
    (peer ∈ s.peerConns → onChildAdded self peer room s = s) ∧
    (peer ∈ s.peerConns → connectToPeer peer room (jsGt self peer) s = s) ∧
    (s.peerConns.Nodup → self ∉ s.peerConns →
      (onChildAdded self peer room s).peerConns.Nodup ∧
        self ∉ (onChildAdded self peer room s).peerConns) := by
  refine ⟨?_, ?_, ?_, ?_⟩
  · unfold onChildAdded
    rw [if_pos (Or.inl rfl)]
  · intro h
    unfold onChildAdded
    rw [if_pos (Or.inr h)]
  · intro h
    unfold connectToPeer
    rw [if_pos h]
  · intro hnd hself
    by_cases h : peer = self ∨ peer ∈ s.peerConns
    · unfold onChildAdded
      rw [if_pos h]
      exact ⟨hnd, hself⟩
    · push_neg at h
      have hmem : peer ∉ s.peerConns := h.2
      have hconn : (onChildAdded self peer room s).peerConns = peer :: s.peerConns := by
        unfold onChildAdded
        rw [if_neg (by tauto)]
        unfold connectToPeer
        rw [if_neg hmem]
      rw [hconn]
      refine ⟨List.nodup_cons.mpr ⟨hmem, hnd⟩, ?_⟩
      intro hin
      rcases List.mem_cons.mp hin with heq | hin2
      · exact h.1 heq.symm
      · exact hself hin2

/-- Witness for C7 with self `"a"`, a connected peer `"b"` and room
`"g"`: all three guarded branches and the invariant preservation are
exercised at a concrete state. -/
theorem peer_map_at_most_one_no_self_witness :
    onChildAdded [97] [97] [103]
        ⟨some [103], true, false, [[98]], [([98], [])], [], [localTile, [98]], true, true⟩ =
      ⟨some [103], true, false, [[98]], [([98], [])], [], [localTile, [98]], true, true⟩ ∧
    onChildAdded [97] [98] [103]
        ⟨some [103], true, false, [[98]], [([98], [])], [], [localTile, [98]], true, true⟩ =
      ⟨some [103], true, false, [[98]], [([98], [])], [], [localTile, [98]], true, true⟩ ∧
    connectToPeer [98] [103] (jsGt [97] [98])
        ⟨some [103], true, false, [[98]], [([98], [])], [], [localTile, [98]], true, true⟩ =
      ⟨some [103], true, false, [[98]], [([98], [])], [], [localTile, [98]], true, true⟩ ∧
    ((onChildAdded [97] [99] [103]
        ⟨some [103], true, false, [[98]], [([98], [])], [], [localTile, [98]], true,
          true⟩).peerConns.Nodup ∧
      [97] ∉ (onChildAdded [97] [99] [103]
        ⟨some [103], true, false, [[98]], [([98], [])], [], [localTile, [98]], true,
          true⟩).peerConns) := by
  refine ⟨(peer_map_at_most_one_no_self [97] [98] [103] _).1, ?_, ?_, ?_⟩
  · exact (peer_map_at_most_one_no_self [97] [98] [103] _).2.1 (by decide)
  · exact (peer_map_at_most_one_no_self [97] [98] [103] _).2.2.1 (by decide)
  · exact (peer_map_at_most_one_no_self [97] [99] [103] _).2.2.2 (by decide) (by decide)

/-- Claim C8: after the presence handler processes an update for a key
(valid data), that key is in `onlineNow` — hence rendered — if and only
if the record's `online` flag is set and its `lastSeen` is strictly less
than `PRESENCE_TTL = 90000` ms before the processing time; the periodic
recheck drops every entry whose `lastSeen` is `PRESENCE_TTL` ms old or
older; and every record the map ever holds has its `online` flag set. -/
theorem presence_rendered_iff_fresh (now : Nat) (key : JSStr) (d : PresenceData)
    (m : PresenceMap) (hu : d.username ≠ []) :
    (key ∈ objKeys (presenceOnEvent now key (some d) m) ↔
      d.online = true ∧ now - d.lastSeen < PRESENCE_TTL) ∧
    (∀ kv ∈ recheckStale now m, now - kv.2.lastSeen < PRESENCE_TTL) ∧
    ((∀ kv ∈ m, kv.2.online = true) →
      ∀ kv ∈ presenceOnEvent now key (some d) m, kv.2.online = true) := by
  have hrecheck : ∀ kv ∈ recheckStale now m, now - kv.2.lastSeen < PRESENCE_TTL := by
    intro kv hkv
    unfold recheckStale at hkv
    have h := List.of_mem_filter hkv
    simp only [Bool.not_eq_true', decide_eq_false_iff_not, ge_iff_le, Nat.not_le] at h
    exact h
  have hred : presenceOnEvent now key (some d) m =
      if d.online = true ∧ now - d.lastSeen < PRESENCE_TTL then objSet key d m
      else objDel key m := by
    simp only [presenceOnEvent]
    rw [if_neg hu]
  refine ⟨?_, hrecheck, ?_⟩
  · rw [hred]
    by_cases halive : d.online = true ∧ now - d.lastSeen < PRESENCE_TTL
    · rw [if_pos halive]
      constructor
      · intro _
        exact halive
      · intro _
        exact List.mem_cons_self _ _
    · rw [if_neg halive]
      constructor
      · intro hk
        exfalso
        rcases List.mem_map.mp hk with ⟨kv, hkv, hfst⟩
        unfold objDel at hkv
        have := List.of_mem_filter hkv
        rw [hfst] at this
        simp at this
      · intro hk
        exact absurd hk halive
  · intro hall kv hkv
    rw [hred] at hkv
    by_cases halive : d.online = true ∧ now - d.lastSeen < PRESENCE_TTL
    · rw [if_pos halive] at hkv
      rcases List.mem_cons.mp hkv with heq | hmem
      · rw [heq]
        exact halive.1
      · exact hall kv (List.mem_of_mem_filter hmem)
    · rw [if_neg halive] at hkv
      exact hall kv (List.mem_of_mem_filter hkv)

/-- Witness for C8: a fresh online record for key `"k"` is rendered at
time 100000 (lastSeen 20000, 80000 ms old); a stale entry (lastSeen 0,
100000 ms old) is dropped by the recheck at time 100000. -/
theorem presence_rendered_iff_fresh_witness :
    ([107] ∈ objKeys (presenceOnEvent 100000 [107] (some ⟨[107], true, 20000⟩) []) ↔
      (⟨[107], true, 20000⟩ : PresenceData).online = true ∧
        100000 - (⟨[107], true, 20000⟩ : PresenceData).lastSeen < PRESENCE_TTL) ∧
    (∀ kv ∈ recheckStale 100000 [([106], ⟨[106], true, 0⟩), ([107], ⟨[107], true, 20000⟩)],
      100000 - kv.2.lastSeen < PRESENCE_TTL) ∧
    (∀ kv ∈ presenceOnEvent 100000 [107] (some ⟨[107], true, 20000⟩) [],
      kv.2.online = true) :=
  ⟨(presence_rendered_iff_fresh 100000 [107] ⟨[107], true, 20000⟩ [] (by decide)).1,
   (presence_rendered_iff_fresh 100000 [107] ⟨[107], true, 20000⟩
      [([106], ⟨[106], true, 0⟩), ([107], ⟨[107], true, 20000⟩)] (by decide)).2.1,
   (presence_rendered_iff_fresh 100000 [107] ⟨[107], true, 20000⟩ [] (by decide)).2.2
     (by decide)⟩

/-- Claim C9: at login, an existing account record whose stored `keyHash`
differs from the hash of the provided secret key causes a rejection: the
error is surfaced, the account directory is unchanged, the session
username is unchanged, and the user stays on the login screen. -/
theorem login_rejected_on_wrong_key (hash : JSStr → JSStr) (rawName rawKey : JSStr)
    (s : AppState) (r : AccountRecord)
    (hname : sanitizeName rawName ≠ [])
    (hkey : jsTrim rawKey ≠ [])
    (hget : objGet (sanitizeName rawName) s.users = some r)
    (hmism : r.keyHash ≠ hash (jsTrim rawKey)) :
    doLogin hash rawName rawKey s = { s with status := LoginStatus.errorShown } ∧
    (doLogin hash rawName rawKey s).users = s.users ∧
    (doLogin hash rawName rawKey s).sessionUser = s.sessionUser ∧
    (doLogin hash rawName rawKey s).onLoginScreen = s.onLoginScreen := by
  have h : doLogin hash rawName rawKey s = { s with status := LoginStatus.errorShown } := by
    simp only [doLogin, hget, if_neg hname, if_neg hkey, if_pos hmism]
  refine ⟨h, ?_, ?_, ?_⟩ <;> rw [h]

/-- Witness for C9: the directory holds `"a"` with key hash `[1]`; a
login for `"a"` whose provided key hashes to `[50]` is rejected with all
state but the status line unchanged. -/
theorem login_rejected_on_wrong_key_witness :
    doLogin (fun k => k) [97] [50] ⟨[([97], ⟨[97], [1]⟩)], none, true, LoginStatus.idle⟩ =
      ⟨[([97], ⟨[97], [1]⟩)], none, true, LoginStatus.errorShown⟩ ∧
    (doLogin (fun k => k) [97] [50]
        ⟨[([97], ⟨[97], [1]⟩)], none, true, LoginStatus.idle⟩).users =
      [([97], ⟨[97], [1]⟩)] ∧
    (doLogin (fun k => k) [97] [50]
        ⟨[([97], ⟨[97], [1]⟩)], none, true, LoginStatus.idle⟩).sessionUser = none ∧
    (doLogin (fun k => k) [97] [50]
        ⟨[([97], ⟨[97], [1]⟩)], none, true, LoginStatus.idle⟩).onLoginScreen = true :=
  login_rejected_on_wrong_key (fun k => k) [97] [50]
    ⟨[([97], ⟨[97], [1]⟩)], none, true, LoginStatus.idle⟩ ⟨[97], [1]⟩
    (by decide) (by decide) (by decide) (by decide)

/-- Claim C10: every sanitised username has at most 24 characters, all
drawn from word characters, hyphen, dot and space; an input that
sanitises to the empty string is rejected by the Firebase login, by the
rename handler and by the Gun login, leaving the session username (and
the account directory) unchanged. -/
theorem username_sanitised_bounded (raw : JSStr) :
    (sanitizeName raw).length ≤ 24 ∧
    (∀ c ∈ sanitizeName raw, allowedNameChar c = true) ∧
    (sanitizeName raw = [] →
      (∀ (hash : JSStr → JSStr) (rawKey : JSStr) (s : AppState),
        (doLogin hash raw rawKey s).sessionUser = s.sessionUser ∧
        (doLogin hash raw rawKey s).users = s.users ∧
        changeName hash raw rawKey s = s) ∧
      (∀ u : Option JSStr, doLoginGun raw u = u)) := by
  refine ⟨?_, ?_, ?_⟩
  · unfold sanitizeName
    rw [List.length_take]
    exact Nat.min_le_left _ _
  · intro c hc
    have hmem : c ∈ (jsTrim raw).filter allowedNameChar := List.take_subset _ _ hc
    exact List.of_mem_filter hmem
  · intro h
    constructor
    · intro hash rawKey s
      have hlogin : doLogin hash raw rawKey s = { s with status := LoginStatus.errorShown } := by
        simp only [doLogin, if_pos h]
      have hchange : changeName hash raw rawKey s = s := by
        by_cases hr : raw = []
        · simp only [changeName, if_pos hr]
        · simp only [changeName, if_neg hr, if_pos h]
      exact ⟨by rw [hlogin], by rw [hlogin], hchange⟩
    · intro u
      simp only [doLoginGun, if_pos h]

/-- Witness for C10: the input `"!"` sanitises to the empty string and
every accepting surface rejects it unchanged. -/
theorem username_sanitised_bounded_witness :
    (sanitizeName [33]).length ≤ 24 ∧
    sanitizeName [33] = [] ∧
    (doLogin (fun k => k) [33] [50] ⟨[], none, true, LoginStatus.idle⟩).sessionUser = none ∧
    (doLogin (fun k => k) [33] [50] ⟨[], none, true, LoginStatus.idle⟩).users = [] ∧
    changeName (fun k => k) [33] [50] ⟨[], none, true, LoginStatus.idle⟩ =
      ⟨[], none, true, LoginStatus.idle⟩ ∧
    doLoginGun [33] (some [97]) = some [97] :=
  ⟨(username_sanitised_bounded [33]).1, by decide,
   (((username_sanitised_bounded [33]).2.2 (by decide)).1 (fun k => k) [50]
      ⟨[], none, true, LoginStatus.idle⟩).1,
   (((username_sanitised_bounded [33]).2.2 (by decide)).1 (fun k => k) [50]
      ⟨[], none, true, LoginStatus.idle⟩).2.1,
   (((username_sanitised_bounded [33]).2.2 (by decide)).1 (fun k => k) [50]
      ⟨[], none, true, LoginStatus.idle⟩).2.2,
   ((username_sanitised_bounded [33]).2.2 (by decide)).2 (some [97])⟩

end ChatSpec
